import Mathlib

/-!
Verification of the howto CLI (github.com/techquestsdev/howto).

Shallow embedding of the core logic: the response sanitizers
(internal/prompt SanitizeCommand and internal/provider CleanCopilotResponse),
the provider registry (Detect, GetByName, ListAll, GetTimeout in
internal/provider/provider.go) and the HTTP response handling of the
OpenAI-compatible and Anthropic query paths.

Go strings are modelled as List Char (wrapped in Lean String at the
statement level); the Go standard-library string helpers used by the code
are re-implemented below with matching semantics.
-/

namespace Howto

/-- Go unicode.IsSpace, the cutset used by strings.TrimSpace. -/
def isGoSpace (c : Char) : Bool :=
  c = ' ' || c = '\t' || c = '\n' || c = '\u000B' || c = '\u000C' || c = '\r' ||
  c.toNat = 0x85 || c.toNat = 0xA0 || c.toNat = 0x1680 ||
  (0x2000 ≤ c.toNat && c.toNat ≤ 0x200A) ||
  c.toNat = 0x2028 || c.toNat = 0x2029 || c.toNat = 0x202F ||
  c.toNat = 0x205F || c.toNat = 0x3000

/-- Go strings.TrimSpace on a char list. -/
def trimWS (l : List Char) : List Char :=
  ((l.dropWhile isGoSpace).reverse.dropWhile isGoSpace).reverse

/-- Go strings.Trim(s, the backtick cutset). -/
def trimBackticks (l : List Char) : List Char :=
  ((l.dropWhile (fun c => c = '`')).reverse.dropWhile (fun c => c = '`')).reverse

/-- Go strings.Split(s, the newline separator). -/
def splitNL : List Char → List (List Char)
  | [] => [[]]
  | '\n' :: rest => [] :: splitNL rest
  | c :: rest =>
    match splitNL rest with
    | line :: lines => (c :: line) :: lines
    | [] => [[c]]

/-- Go strings.Join(lines, the newline separator). -/
def joinNL : List (List Char) → List Char
  | [] => []
  | [l] => l
  | l :: ls => l ++ '\n' :: joinNL ls

/-- Go strings.HasPrefix. -/
def isPfxOf : List Char → List Char → Bool
  | [], _ => true
  | _ :: _, [] => false
  | p :: ps, c :: cs => (p = c) && isPfxOf ps cs

/-- Go strings.TrimPrefix. -/
def trimPfx (pat s : List Char) : List Char :=
  if isPfxOf pat s then s.drop pat.length else s

/-- Go strings.ToLower restricted to the ASCII letters; the sanitizer only
compares lowered text against ASCII keywords, on which this agrees with
the full Unicode table. -/
def toLowerChar (c : Char) : Char :=
  if 'A' ≤ c && c ≤ 'Z' then Char.ofNat (c.toNat + 32) else c

def toLowerL (l : List Char) : List Char := l.map toLowerChar

/-- Go strings.ToUpper restricted to the ASCII letters (only applied to the
fixed lowercase keyword table). -/
def toUpperChar (c : Char) : Char :=
  if 'a' ≤ c && c ≤ 'z' then Char.ofNat (c.toNat - 32) else c

def toUpperL (l : List Char) : List Char := l.map toUpperChar

/-- Go strings.ReplaceAll(cmd, newline, space): the pattern is a single
character, so this is a pointwise map. -/
def replaceNLSpace (l : List Char) : List Char :=
  l.map (fun c => if c = '\n' then ' ' else c)

/-- One left-to-right pass replacing each non-overlapping double space by a
single space (Go strings.ReplaceAll with a two-space pattern). -/
def collapseOnce : List Char → List Char
  | [] => []
  | [c] => [c]
  | c :: d :: rest =>
    if c = ' ' && d = ' ' then ' ' :: collapseOnce rest
    else c :: collapseOnce (d :: rest)

/-- Go strings.Contains(cmd, the double-space pattern). -/
def hasDoubleSpace : List Char → Bool
  | [] => false
  | [_] => false
  | c :: d :: rest => (c = ' ' && d = ' ') || hasDoubleSpace (d :: rest)

/-- The Go loop `for Contains(cmd, double-space) do ReplaceAll`, with fuel;
each pass strictly shortens the list when a double space is present
(collapseOnce_length_lt below), so length-many passes always reach the
fixpoint: runs of spaces collapsed to single spaces. -/
def collapseSpacesFuel : Nat → List Char → List Char
  | 0, l => l
  | fuel + 1, l => if hasDoubleSpace l then collapseSpacesFuel fuel (collapseOnce l) else l

def collapseSpaces (l : List Char) : List Char := collapseSpacesFuel l.length l

/-! ## The uniform sanitizer: internal/prompt SanitizeCommand

Applied by cmd/root.go to the raw response of every provider before the
command is handed to the terminal-injection collaborator. -/

/-- The block-removal step of SanitizeCommand: when the whole (trimmed)
input starts with a triple-backtick fence, drop the first and last lines;
interior lines are kept unconditionally. -/
def stripCodeBlock (cmd : List Char) : List Char :=
  if isPfxOf ['`', '`', '`'] cmd then
    let lines := splitNL cmd
    if lines.length > 2 then joinNL (lines.drop 1).dropLast
    else cmd
  else cmd

/-- The fixed keyword table of SanitizeCommand. -/
def langWords : List (List Char) :=
  ["bash".data, "sh".data, "zsh".data, "shell".data, "cmd".data, "powershell".data]

/-- One iteration of the language-identifier loop of SanitizeCommand: the
check lowers the text, but the two TrimPrefix calls only remove the exact
all-lowercase and all-uppercase spellings of the keyword. -/
def stripLangStep (cmd lang : List Char) : List Char :=
  if isPfxOf (lang ++ ['\n']) (toLowerL cmd) then
    trimPfx (toUpperL lang ++ ['\n']) (trimPfx (lang ++ ['\n']) cmd)
  else cmd

def stripLangs (cmd : List Char) : List Char := langWords.foldl stripLangStep cmd

/-- internal/prompt SanitizeCommand on a char list. -/
def sanitizeCommandL (cmd : List Char) : List Char :=
  let c1 := trimWS cmd
  let c2 := stripCodeBlock c1
  let c3 := trimBackticks c2
  let c4 := stripLangs c3
  let c5 := replaceNLSpace c4
  let c6 := collapseSpaces c5
  trimWS c6

/-- internal/prompt SanitizeCommand. -/
def SanitizeCommand (s : String) : String := String.mk (sanitizeCommandL s.data)

/-! ## The Copilot-only cleaner: internal/provider CleanCopilotResponse -/

/-- The loop body of CleanCopilotResponse: skip blank lines before the first
retained line, toggle the in-code-block flag on every line whose trimmed
form starts with a triple backtick (dropping that line), and keep every
other line verbatim. -/
def cleanLinesStep (acc : List (List Char) × Bool) (line : List Char) :
    List (List Char) × Bool :=
  let cleaned := acc.1
  let inCodeBlock := acc.2
  let trimmed := trimWS line
  if cleaned.isEmpty && trimmed.isEmpty then (cleaned, inCodeBlock)
  else if isPfxOf ['`', '`', '`'] trimmed then (cleaned, !inCodeBlock)
  else if inCodeBlock || !(isPfxOf ['`', '`', '`'] trimmed) then
    (cleaned ++ [line], inCodeBlock)
  else (cleaned, inCodeBlock)

/-- internal/provider CleanCopilotResponse on a char list. -/
def cleanCopilotL (response : List Char) : List Char :=
  let lines := splitNL response
  let res := lines.foldl cleanLinesStep ([], false)
  trimWS (trimBackticks (joinNL res.1))

/-- internal/provider CleanCopilotResponse. -/
def CleanCopilotResponse (s : String) : String := String.mk (cleanCopilotL s.data)

/-! ## Provider registry: internal/provider/provider.go

The environment is modelled as a total map from variable names to values,
with the empty string meaning unset (matching os.Getenv).  The probe
IsCopilotAvailable shells out to the gh tool; it is modelled as a boolean
parameter.  The package-level mutable Configured fields of the five shared
provider descriptors are modelled as an explicit Flags state threaded
through Detect and GetByName (the only functions that write them); the
loop over the fixed four-element apiProviders list is unrolled. -/

def Env : Type := String → String

inductive AuthType where
  | authBearer
  | authAPIKey
  | authCLI
deriving DecidableEq

structure Provider where
  name : String
  endpoint : String
  defaultModel : String
  envVar : String
  authType : AuthType
  configured : Bool
deriving DecidableEq

def OpenAI : Provider :=
  { name := "OpenAI"
    endpoint := "https://api.openai.com/v1/chat/completions"
    defaultModel := "gpt-4o"
    envVar := "OPENAI_API_KEY"
    authType := .authBearer
    configured := false }

def Anthropic : Provider :=
  { name := "Anthropic"
    endpoint := "https://api.anthropic.com/v1/messages"
    defaultModel := "claude-sonnet-4-20250514"
    envVar := "ANTHROPIC_API_KEY"
    authType := .authAPIKey
    configured := false }

def Gemini : Provider :=
  { name := "Gemini"
    endpoint := "https://generativelanguage.googleapis.com/v1beta/openai/chat/completions"
    defaultModel := "gemini-2.0-flash"
    envVar := "GEMINI_API_KEY"
    authType := .authBearer
    configured := false }

def DeepSeek : Provider :=
  { name := "DeepSeek"
    endpoint := "https://api.deepseek.com/chat/completions"
    defaultModel := "deepseek-chat"
    envVar := "DEEPSEEK_API_KEY"
    authType := .authBearer
    configured := false }

def GitHubCopilot : Provider :=
  { name := "GitHub Copilot"
    endpoint := ""
    defaultModel := "gpt-4"
    envVar := ""
    authType := .authCLI
    configured := false }

def apiProviders : List Provider := [OpenAI, Anthropic, Gemini, DeepSeek]

/-- The package-level Configured fields of the five shared descriptors. -/
structure Flags where
  openAI : Bool
  anthropic : Bool
  gemini : Bool
  deepSeek : Bool
  gitHubCopilot : Bool
deriving DecidableEq

def initialFlags : Flags := ⟨false, false, false, false, false⟩

/-- provider.Detect: first API-key provider (in table order) whose variable
is non-empty, else GitHub Copilot when the CLI probe succeeds, else none.
The matched descriptor has its Configured field set in place. -/
def Detect (env : Env) (copilotAvail : Bool) (st : Flags) :
    Option (Provider × String) × Flags :=
  if env OpenAI.envVar ≠ "" then
    (some ({ OpenAI with configured := true }, env OpenAI.envVar),
     { st with openAI := true })
  else if env Anthropic.envVar ≠ "" then
    (some ({ Anthropic with configured := true }, env Anthropic.envVar),
     { st with anthropic := true })
  else if env Gemini.envVar ≠ "" then
    (some ({ Gemini with configured := true }, env Gemini.envVar),
     { st with gemini := true })
  else if env DeepSeek.envVar ≠ "" then
    (some ({ DeepSeek with configured := true }, env DeepSeek.envVar),
     { st with deepSeek := true })
  else if copilotAvail then
    (some ({ GitHubCopilot with configured := true }, ""),
     { st with gitHubCopilot := true })
  else (none, st)

inductive NameError where
  | notConfigured (providerName envVarName : String)
  | copilotNotAvailable
  | unknown (providerName : String)
deriving DecidableEq

/-- provider.GetByName: exact-name match over the API-key table (failing
with the requires-variable error when the variable is empty), then the
three Copilot aliases, then unknown. -/
def GetByName (env : Env) (copilotAvail : Bool) (name : String) (st : Flags) :
    Except NameError (Provider × String) × Flags :=
  if name = OpenAI.name then
    if env OpenAI.envVar = "" then (.error (.notConfigured name OpenAI.envVar), st)
    else (.ok ({ OpenAI with configured := true }, env OpenAI.envVar),
          { st with openAI := true })
  else if name = Anthropic.name then
    if env Anthropic.envVar = "" then (.error (.notConfigured name Anthropic.envVar), st)
    else (.ok ({ Anthropic with configured := true }, env Anthropic.envVar),
          { st with anthropic := true })
  else if name = Gemini.name then
    if env Gemini.envVar = "" then (.error (.notConfigured name Gemini.envVar), st)
    else (.ok ({ Gemini with configured := true }, env Gemini.envVar),
          { st with gemini := true })
  else if name = DeepSeek.name then
    if env DeepSeek.envVar = "" then (.error (.notConfigured name DeepSeek.envVar), st)
    else (.ok ({ DeepSeek with configured := true }, env DeepSeek.envVar),
          { st with deepSeek := true })
  else if name = GitHubCopilot.name || name = "Copilot" || name = "copilot" then
    if !copilotAvail then (.error .copilotNotAvailable, st)
    else (.ok ({ GitHubCopilot with configured := true }, ""),
          { st with gitHubCopilot := true })
  else (.error (.unknown name), st)

structure ProviderInfo where
  name : String
  defaultModel : String
  envVar : String
  configured : Bool
deriving DecidableEq

/-- provider.ListAll: one record per API-key provider in table order with a
freshly computed configured bit, then the Copilot record last; it neither
reads nor writes the shared Configured fields. -/
def ListAll (env : Env) (copilotAvail : Bool) : List ProviderInfo :=
  (apiProviders.map fun p =>
    { name := p.name
      defaultModel := p.defaultModel
      envVar := p.envVar
      configured := env p.envVar != "" }) ++
  [{ name := GitHubCopilot.name
     defaultModel := GitHubCopilot.defaultModel
     envVar := "gh copilot (CLI)"
     configured := copilotAvail }]

/-! ## Timeout resolution: provider.GetTimeout and time.ParseDuration

Durations are modelled as Int nanoseconds (Go time.Duration is an int64
nanosecond count; overflow, which Go reports as an error above roughly 292
years, is not modelled).  The fractional part of a duration literal, which
Go accumulates through float64, is modelled with exact integer arithmetic;
the two agree on every value the claims touch. -/

def nanosecond : Int := 1

def microsecond : Int := 1000

def millisecond : Int := 1000000

def second : Int := 1000000000

def minute : Int := 60000000000

def hour : Int := 3600000000000

/-- provider.DefaultTimeout (30 seconds). -/
def DefaultTimeout : Int := 30 * second

/-- provider.TimeoutEnvVar. -/
def TimeoutEnvVar : String := "HOWTO_TIMEOUT"

def isDigit (c : Char) : Bool := '0' ≤ c && c ≤ '9'

/-- time.ParseDuration leadingInt: consume leading digits. -/
def leadingInt : List Char → Int → Int × List Char
  | c :: rest, acc =>
    if isDigit c then leadingInt rest (acc * 10 + (c.toNat - '0'.toNat : Nat))
    else (acc, c :: rest)
  | [], acc => (acc, [])

/-- time.ParseDuration leadingFraction: consume fractional digits, tracking
the power-of-ten scale. -/
def leadingFraction : List Char → Int → Int → Int × Int × List Char
  | c :: rest, f, scale =>
    if isDigit c then leadingFraction rest (f * 10 + (c.toNat - '0'.toNat : Nat)) (scale * 10)
    else (f, scale, c :: rest)
  | [], f, scale => (f, scale, [])

/-- The time.ParseDuration unit table. -/
def unitValue : List Char → Option Int
  | ['n', 's'] => some nanosecond
  | ['u', 's'] => some microsecond
  | ['µ', 's'] => some microsecond
  | ['μ', 's'] => some microsecond
  | ['m', 's'] => some millisecond
  | ['s'] => some second
  | ['m'] => some minute
  | ['h'] => some hour
  | _ => none

/-- The main loop of time.ParseDuration: repeatedly read [digits][.digits]
then a unit, and accumulate.  Each iteration consumes at least one digit
and one unit character, so length-many fuel steps always suffice. -/
def parseDurationLoop : Nat → List Char → Int → Option Int
  | _, [], d => some d
  | 0, _ :: _, _ => none
  | fuel + 1, s, d =>
    let vr := leadingInt s 0
    let v := vr.1
    let s1 := vr.2
    let pre := s1.length ≠ s.length
    let fr :=
      match s1 with
      | '.' :: rest =>
        let q := leadingFraction rest 0 1
        (q.1, q.2.1, q.2.2, decide (q.2.2.length ≠ rest.length))
      | _ => (0, 1, s1, false)
    let f := fr.1
    let scale := fr.2.1
    let s2 := fr.2.2.1
    let post := fr.2.2.2
    if !pre && !post then none
    else
      let unit := s2.takeWhile fun c => !(c = '.' || isDigit c)
      let s3 := s2.drop unit.length
      if unit.isEmpty then none
      else
        match unitValue unit with
        | none => none
        | some u =>
          parseDurationLoop fuel s3 (d + v * u + (if f > 0 then f * u / scale else 0))

/-- time.ParseDuration (sign, the literal zero, then the unit loop). -/
def parseGoDuration (s : List Char) : Option Int :=
  let sr :=
    match s with
    | '-' :: rest => (true, rest)
    | '+' :: rest => (false, rest)
    | _ => (false, s)
  let neg := sr.1
  let s1 := sr.2
  if s1 = ['0'] then some 0
  else if s1.isEmpty then none
  else
    match parseDurationLoop (s1.length + 1) s1 0 with
    | some d => some (if neg then -d else d)
    | none => none

/-- provider.GetTimeout: a positive flag wins; otherwise a non-empty
HOWTO_TIMEOUT that parses as a duration; otherwise the 30-second default. -/
def GetTimeout (flagTimeout : Int) (env : Env) : Int :=
  if flagTimeout > 0 then flagTimeout
  else if env TimeoutEnvVar ≠ "" then
    match parseGoDuration (env TimeoutEnvVar).data with
    | some d => d
    | none => DefaultTimeout
  else DefaultTimeout

/-! ## HTTP response handling: queryOpenAICompatible and queryAnthropic

Both query functions read the whole response body and then:
unmarshal (failure is the decode error), check the decoded error payload
(surfaced as the API-error message), check the HTTP status (non-200 is
surfaced with the status code and raw body), and finally extract the
content.  The functions below model exactly that post-read sequence; the
JSON decode outcome is passed in as an Option, none meaning the body did
not unmarshal.  The error kinds mirror the distinct error constructions in
the Go code (the spec taxonomy classes both apiError and apiStatus as
ApiError). -/

inductive QueryError where
  | apiError (message : String)
  | apiStatus (status : Nat) (body : String)
  | decodeError
  | emptyResponse (providerName : String)
deriving DecidableEq

/-- True exactly on the two error kinds the spec classifies as ApiError. -/
def QueryError.isApiKind : QueryError → Bool
  | .apiError _ => true
  | .apiStatus _ _ => true
  | _ => false

structure APIErrorPayload where
  message : String
deriving DecidableEq

structure ChatMessage where
  role : String
  content : String
deriving DecidableEq

structure ChatChoice where
  message : ChatMessage
deriving DecidableEq

structure ChatResponse where
  choices : List ChatChoice
  error : Option APIErrorPayload
deriving DecidableEq

/-- provider.queryOpenAICompatible from the point the body has been read:
decode failure, then the decoded error payload, then the status check,
then the first choice, else the no-response error. -/
def handleOpenAIResponse (providerName : String) (status : Nat) (body : String)
    (decoded : Option ChatResponse) : Except QueryError String :=
  match decoded with
  | none => .error .decodeError
  | some chatResp =>
    match chatResp.error with
    | some apiErr => .error (.apiError apiErr.message)
    | none =>
      if status ≠ 200 then .error (.apiStatus status body)
      else
        match chatResp.choices with
        | choice :: _ => .ok choice.message.content
        | [] => .error (.emptyResponse providerName)

structure AnthropicBlock where
  type : String
  text : String
deriving DecidableEq

structure AnthropicError where
  type : String
  message : String
deriving DecidableEq

structure AnthropicResponse where
  content : List AnthropicBlock
  error : Option AnthropicError
deriving DecidableEq

/-- provider.queryAnthropic from the point the body has been read: same
sequence as the OpenAI-compatible path, except that the success branch
requires the FIRST content block to have type text. -/
def handleAnthropicResponse (status : Nat) (body : String)
    (decoded : Option AnthropicResponse) : Except QueryError String :=
  match decoded with
  | none => .error .decodeError
  | some r =>
    match r.error with
    | some e => .error (.apiError e.message)
    | none =>
      if status ≠ 200 then .error (.apiStatus status body)
      else
        match r.content with
        | b :: _ => if b.type = "text" then .ok b.text else .error (.emptyResponse "Anthropic")
        | [] => .error (.emptyResponse "Anthropic")

/-! ## Copilot query path: the post-subprocess stage of queryCopilot

On a zero exit status, queryCopilot trims the captured stdout, fails with
the no-suggestion (EmptyResponse) error only when that trimmed text is
empty, and otherwise returns CleanCopilotResponse of it. -/

def trimSpaceS (s : String) : String := String.mk (trimWS s.data)

/-- provider.queryCopilot after a successful subprocess run. -/
def copilotPostprocess (stdout : String) : Except QueryError String :=
  let result := trimSpaceS stdout
  if result = "" then .error (.emptyResponse "GitHub Copilot")
  else .ok (CleanCopilotResponse result)

/-- The sanitizer inputs exercised by the test suite and the specification
(section 8). -/
def sanitizerTestInputs : List String :=
  ["ls -la", "  ls -la  ", "```bash\nls -la\n```", "```\nls -la\n```", "`ls -la`",
   "bash\nls -la", "sh\nls -la", "zsh\nls -la", "ls -la\npwd", "ls   -la    /tmp",
   "```bash\nfind . -name \"*.go\" -type f\n```", "```ls -la```",
   "powershell\nGet-ChildItem", "cmd\ndir /s", "", "   \n\n   "]

/-- An environment with both the OpenAI and the Anthropic key set. -/
def envOpenAIAnthropic : Env := fun v =>
  if v = "OPENAI_API_KEY" then "openai-key"
  else if v = "ANTHROPIC_API_KEY" then "anthropic-key"
  else ""

/-- Pointwise implication of the five Configured flags. -/
def flagsLe (a b : Flags) : Bool :=
  (!a.openAI || b.openAI) && (!a.anthropic || b.anthropic) && (!a.gemini || b.gemini) &&
  (!a.deepSeek || b.deepSeek) && (!a.gitHubCopilot || b.gitHubCopilot)

/-- An environment with only the OpenAI key set. -/
def envOpenAIOnly : Env := fun v => if v = "OPENAI_API_KEY" then "sk-test" else ""

/-- The empty environment. -/
def envUnset : Env := fun _ => ""

/-- An environment holding a 45-second HOWTO_TIMEOUT. -/
def envTimeout45 : Env := fun v => if v = "HOWTO_TIMEOUT" then "45s" else ""

/-! ## Claim C6: case handling of the language-identifier prefixes -/

/-- No keyword of the table, in any letter casing, starts the given text
followed by a newline. -/
def noLangStart (s : List Char) : Bool :=
  langWords.all fun lang => !(isPfxOf (lang ++ ['\n']) (toLowerL s))

/-! ## Supporting lemmas and claim theorems -/

theorem collapseOnce_length_le : ∀ l : List Char, (collapseOnce l).length ≤ l.length
  | [] => Nat.le_refl _
  | [_] => Nat.le_refl _
  | c :: d :: rest => by
    simp only [collapseOnce]
    split
    · simp only [List.length_cons]
      exact Nat.le_succ_of_le (Nat.succ_le_succ (collapseOnce_length_le rest))
    · simp only [List.length_cons]
      exact Nat.succ_le_succ (collapseOnce_length_le (d :: rest))

theorem collapseOnce_length_lt :
    ∀ l : List Char, hasDoubleSpace l = true → (collapseOnce l).length < l.length
  | c :: d :: rest, h => by
    simp only [collapseOnce]
    split
    · simp only [List.length_cons]
      exact Nat.lt_succ_of_le (Nat.succ_le_succ (collapseOnce_length_le rest))
    · rename_i hcd
      have h2 : hasDoubleSpace (d :: rest) = true := by
        simp only [hasDoubleSpace, Bool.or_eq_true] at h
        exact h.resolve_left (by simpa using hcd)
      simp only [List.length_cons]
      exact Nat.succ_lt_succ (collapseOnce_length_lt (d :: rest) h2)

theorem collapseSpacesFuel_no_double :
    ∀ (fuel : Nat) (l : List Char), l.length ≤ fuel →
      hasDoubleSpace (collapseSpacesFuel fuel l) = false
  | 0, l, h => by
    have : l = [] := List.eq_nil_of_length_eq_zero (Nat.le_zero.mp h)
    simp [this, collapseSpacesFuel, hasDoubleSpace]
  | fuel + 1, l, h => by
    simp only [collapseSpacesFuel]
    by_cases hd : hasDoubleSpace l = true
    · simp only [hd, if_pos]
      exact collapseSpacesFuel_no_double fuel (collapseOnce l)
        (Nat.le_of_lt_succ (Nat.lt_of_lt_of_le (collapseOnce_length_lt l hd) h))
    · simp only [Bool.not_eq_true] at hd
      simp [hd]

/-- The Go space-collapsing loop terminates with no double space left. -/
theorem collapseSpaces_no_double (l : List Char) :
    hasDoubleSpace (collapseSpaces l) = false :=
  collapseSpacesFuel_no_double l.length l (Nat.le_refl _)

/-! ## Claims -/

/-- Claim C1.  The claim states that the sanitizer applied uniformly to all
providers output (SanitizeCommand, applied in cmd/root.go to every
provider response) processes the input line by line with an in-code-block
toggle, removing fence-marker lines occurring anywhere.  The code does
not: SanitizeCommand only drops the first and last lines when the whole
trimmed input starts with a fence, so an interior fence line survives
(as a literal triple backtick in the collapsed output), while the
Copilot-only CleanCopilotResponse implements exactly the claimed toggle.
The specification itself directs that the two variants be reconciled to
the toggle algorithm and that any divergence is a bug to fix. -/
theorem c1_uniform_sanitizer_keeps_interior_fences :
    SanitizeCommand "ls\n```\npwd" = "ls ``` pwd" ∧
    CleanCopilotResponse "ls\n```\npwd" = "ls\npwd" ∧
    SanitizeCommand "ls\n```\npwd" ≠ "ls pwd" :=
  ⟨by decide, by decide, by decide⟩

/-- Claim C2.  For every HTTP-based provider query whose body decodes to a
response carrying an error payload, the query fails with the API-error
message from that payload, regardless of the HTTP status code, for both
the OpenAI-compatible and the Anthropic paths; in particular a 401 whose
JSON body holds the message invalid key surfaces exactly that message. -/
theorem c2_error_payload_surfaces_api_error (providerName : String) (status : Nat)
    (body : String) (choices : List ChatChoice) (e : APIErrorPayload)
    (blocks : List AnthropicBlock) (ae : AnthropicError) :
    handleOpenAIResponse providerName status body
        (some { choices := choices, error := some e }) =
      .error (.apiError e.message) ∧
    handleAnthropicResponse status body
        (some { content := blocks, error := some ae }) =
      .error (.apiError ae.message) ∧
    handleOpenAIResponse "OpenAI" 401 "the 401 body"
        (some { choices := [], error := some { message := "invalid key" } }) =
      .error (.apiError "invalid key") ∧
    QueryError.isApiKind (.apiError e.message) = true :=
  ⟨rfl, rfl, rfl, rfl⟩

/-- Claim C3 counterexample.  The claim says a non-success status with a
body that is not parseable JSON yields ApiError (not DecodeError); in the
code the unmarshal failure is checked first, so such a response yields the
decode error, which is not an ApiError kind. -/
theorem c3_unparseable_body_counterexample :
    handleOpenAIResponse "OpenAI" 500 "Internal Server Error" none =
      .error .decodeError ∧
    handleAnthropicResponse 500 "Internal Server Error" none =
      .error .decodeError ∧
    QueryError.isApiKind .decodeError = false :=
  ⟨rfl, rfl, rfl⟩

/-- Claim C3 as amended.  A body that does not unmarshal yields the decode
error regardless of status; a non-success status whose body unmarshals
without an error payload yields ApiError carrying the status code and the
raw body text.  Holds for both HTTP paths. -/
theorem c3_amended_status_error_classification (providerName : String) (status : Nat)
    (body : String) :
    (∀ choices : List ChatChoice, status ≠ 200 →
        handleOpenAIResponse providerName status body
            (some { choices := choices, error := none }) =
          .error (.apiStatus status body)) ∧
    handleOpenAIResponse providerName status body none = .error .decodeError ∧
    (∀ blocks : List AnthropicBlock, status ≠ 200 →
        handleAnthropicResponse status body (some { content := blocks, error := none }) =
          .error (.apiStatus status body)) ∧
    handleAnthropicResponse status body none = .error .decodeError ∧
    QueryError.isApiKind (.apiStatus status body) = true := by
  refine ⟨fun choices h => ?_, rfl, fun blocks h => ?_, rfl, rfl⟩
  · simp [handleOpenAIResponse, h]
  · simp [handleAnthropicResponse, h]

/-- Claim C3 witness: the amended statement at a concrete 500 response with
an HTML body (modelled as a failed decode for the DecodeError conjunct and
as a decoded empty object for the ApiError conjunct). -/
theorem c3_amended_status_error_classification_witness :
    handleOpenAIResponse "OpenAI" 500 "an HTML error page"
        (some { choices := [], error := none }) =
      .error (.apiStatus 500 "an HTML error page") :=
  (c3_amended_status_error_classification "OpenAI" 500 "an HTML error page").1 [] (by decide)

/-- Claim C4 counterexample.  The claim says the Anthropic result is the
text of the first text-typed block even when it is not the first block in
the list; the code only inspects the head of the list, so a response whose
first block is not text-typed fails with EmptyResponse even though a
text-typed block is present. -/
theorem c4_first_block_only_counterexample :
    handleAnthropicResponse 200 "the response body"
        (some { content := [{ type := "tool_use", text := "irrelevant" },
                            { type := "text", text := "ls -la" }],
                error := none }) =
      .error (.emptyResponse "Anthropic") ∧
    (([{ type := "tool_use", text := "irrelevant" },
       { type := "text", text := "ls -la" }] : List AnthropicBlock).any
        fun b => b.type == "text") = true :=
  ⟨rfl, by decide⟩

/-- Claim C4 as amended.  On a successful decode with no error payload and
status 200, the result is the text of the FIRST content block when that
block has type text, and EmptyResponse otherwise (empty list, or head
block of any other type, even when a later block is text-typed). -/
theorem c4_amended_first_block_text (body : String) (blocks : List AnthropicBlock) :
    handleAnthropicResponse 200 body (some { content := blocks, error := none }) =
      match blocks with
      | b :: _ =>
        if b.type = "text" then .ok b.text else .error (.emptyResponse "Anthropic")
      | [] => .error (.emptyResponse "Anthropic") := by
  cases blocks <;> rfl

/-- Claim C7 counterexample.  The claim asserts idempotence of the uniform
sanitizer for every input; an input whose language-prefix stripping
uncovers a fence marker is sanitized to text that a second pass changes
again. -/
theorem c7_idempotence_counterexample :
    SanitizeCommand (SanitizeCommand "bash\n```echo") ≠ SanitizeCommand "bash\n```echo" ∧
    SanitizeCommand "bash\n```echo" = "```echo" ∧
    SanitizeCommand "```echo" = "echo" :=
  ⟨by decide, by decide, by decide⟩

/-- Claim C7 as amended.  The sanitizer is a total function; it maps the
empty string and pure-whitespace input to the empty string; and
sanitize composed with itself agrees with sanitize on every tested input
(the universal idempotence the claim asserts fails, see the
counterexample). -/
theorem c7_amended_total_and_idempotent_on_tests :
    SanitizeCommand "" = "" ∧
    SanitizeCommand "   \n\n   " = "" ∧
    (sanitizerTestInputs.all fun x =>
      SanitizeCommand (SanitizeCommand x) == SanitizeCommand x) = true :=
  ⟨by decide, by decide, by decide⟩

/-- Claim C10.  In queryCopilot the empty-result check runs on the trimmed
raw stdout before CleanCopilotResponse, so stdout consisting solely of
fence lines is non-blank, passes the check, and the query succeeds with
the empty string rather than failing with EmptyResponse. -/
theorem c10_empty_check_precedes_cleaning :
    trimSpaceS "```\n```" ≠ "" ∧
    copilotPostprocess "```\n```" = .ok "" ∧
    CleanCopilotResponse (trimSpaceS "```\n```") = "" :=
  ⟨by decide, rfl, by decide⟩

/-- Claim C5.  Detect scans the API-key providers in the fixed order
OpenAI, Anthropic, Gemini, DeepSeek and returns the first whose variable
is non-empty together with its value (so ties always go to the earliest in
that order); with none set it returns GitHub Copilot with an empty
credential exactly when the CLI probe succeeds, and no provider otherwise. -/
theorem c5_detect_priority_order (env : Env) (avail : Bool) (st : Flags) :
    (env "OPENAI_API_KEY" ≠ "" →
      (Detect env avail st).1 =
        some ({ OpenAI with configured := true }, env "OPENAI_API_KEY")) ∧
    (env "OPENAI_API_KEY" = "" → env "ANTHROPIC_API_KEY" ≠ "" →
      (Detect env avail st).1 =
        some ({ Anthropic with configured := true }, env "ANTHROPIC_API_KEY")) ∧
    (env "OPENAI_API_KEY" = "" → env "ANTHROPIC_API_KEY" = "" →
      env "GEMINI_API_KEY" ≠ "" →
      (Detect env avail st).1 =
        some ({ Gemini with configured := true }, env "GEMINI_API_KEY")) ∧
    (env "OPENAI_API_KEY" = "" → env "ANTHROPIC_API_KEY" = "" →
      env "GEMINI_API_KEY" = "" → env "DEEPSEEK_API_KEY" ≠ "" →
      (Detect env avail st).1 =
        some ({ DeepSeek with configured := true }, env "DEEPSEEK_API_KEY")) ∧
    (env "OPENAI_API_KEY" = "" → env "ANTHROPIC_API_KEY" = "" →
      env "GEMINI_API_KEY" = "" → env "DEEPSEEK_API_KEY" = "" → avail = true →
      (Detect env avail st).1 = some ({ GitHubCopilot with configured := true }, "")) ∧
    (env "OPENAI_API_KEY" = "" → env "ANTHROPIC_API_KEY" = "" →
      env "GEMINI_API_KEY" = "" → env "DEEPSEEK_API_KEY" = "" → avail = false →
      (Detect env avail st).1 = none) := by
  refine ⟨fun h1 => ?_, fun h1 h2 => ?_, fun h1 h2 h3 => ?_, fun h1 h2 h3 h4 => ?_,
    fun h1 h2 h3 h4 h5 => ?_, fun h1 h2 h3 h4 h5 => ?_⟩ <;>
    simp_all [Detect, OpenAI, Anthropic, Gemini, DeepSeek, GitHubCopilot]

/-- Claim C5 witness: with both OPENAI_API_KEY and ANTHROPIC_API_KEY set,
Detect selects OpenAI and its key. -/
theorem c5_detect_priority_order_witness :
    (Detect envOpenAIAnthropic true initialFlags).1 =
      some ({ OpenAI with configured := true }, "openai-key") :=
  (c5_detect_priority_order envOpenAIAnthropic true initialFlags).1 (by decide)

/-- Claim C8 counterexample.  The claim says the configured status
observable on any descriptor depends only on the environment at the
current call.  It does not: after a Detect under an environment with
OPENAI_API_KEY set, a later Detect under the empty environment leaves the
shared OpenAI descriptor flag true, while the same call with no prior
history leaves it false — same current call, same current environment,
different observable flag. -/
theorem c8_configured_flag_history_dependence :
    (Detect envUnset false (Detect envOpenAIOnly false initialFlags).2).2.openAI = true ∧
    (Detect envUnset false initialFlags).2.openAI = false :=
  ⟨by decide, by decide⟩

/-- Claim C8 as amended.  The records returned by ListAll are computed
from the current environment and probe alone (ListAll neither reads nor
writes the shared flags), but Detect and GetByName mutate the matched
shared descriptor flag to true and no operation ever resets it, so the
flag persists across calls (it is monotone along every call sequence) and
can remain true under an environment where the provider is no longer
configured. -/
theorem c8_amended_listall_fresh_flags_persist (env : Env) (avail : Bool)
    (name : String) (st : Flags) :
    (ListAll env avail).map ProviderInfo.configured =
      [env "OPENAI_API_KEY" != "", env "ANTHROPIC_API_KEY" != "",
       env "GEMINI_API_KEY" != "", env "DEEPSEEK_API_KEY" != "", avail] ∧
    flagsLe st (Detect env avail st).2 = true ∧
    flagsLe st (GetByName env avail name st).2 = true := by
  refine ⟨?_, ?_, ?_⟩
  · simp [ListAll, apiProviders, OpenAI, Anthropic, Gemini, DeepSeek, GitHubCopilot]
  · cases st
    simp only [Detect]
    split_ifs <;> simp [flagsLe]
  · cases st
    simp only [GetByName]
    split_ifs <;> simp [flagsLe]

/-- Claim C9.  GetTimeout resolves the timeout with flag over environment
over default precedence: a positive flag value is returned as is; with no
flag, a non-empty HOWTO_TIMEOUT that parses as a duration is used; with no
flag and an absent or unparseable value the 30-second default results.
The concrete conjuncts pin the parses of 45s and 2m and the default. -/
theorem c9_get_timeout_precedence (flagTimeout : Int) (env : Env) :
    (flagTimeout > 0 → GetTimeout flagTimeout env = flagTimeout) ∧
    (¬flagTimeout > 0 → env TimeoutEnvVar = "" →
      GetTimeout flagTimeout env = DefaultTimeout) ∧
    (¬flagTimeout > 0 → env TimeoutEnvVar ≠ "" →
      ∀ d : Int, parseGoDuration (env TimeoutEnvVar).data = some d →
        GetTimeout flagTimeout env = d) ∧
    (¬flagTimeout > 0 → parseGoDuration (env TimeoutEnvVar).data = none →
      GetTimeout flagTimeout env = DefaultTimeout) ∧
    parseGoDuration "45s".data = some (45 * second) ∧
    parseGoDuration "2m".data = some (2 * minute) ∧
    parseGoDuration "invalid".data = none ∧
    DefaultTimeout = 30 * second := by
  refine ⟨fun h => ?_, fun h h2 => ?_, fun h h2 d hd => ?_, fun h hn => ?_,
    by decide, by decide, by decide, by decide⟩
  · simp [GetTimeout, h]
  · simp [GetTimeout, h, h2]
  · simp [GetTimeout, h, h2, hd]
  · by_cases h2 : env TimeoutEnvVar = ""
    · simp [GetTimeout, h, h2]
    · simp [GetTimeout, h, h2, hn]

/-- Claim C9 witness: no flag with HOWTO_TIMEOUT at 45s resolves to 45
seconds. -/
theorem c9_get_timeout_precedence_witness :
    GetTimeout 0 envTimeout45 = 45 * second :=
  (c9_get_timeout_precedence 0 envTimeout45).2.2.1 (by decide) (by decide)
    (45 * second) (by decide)

theorem isPfxOf_map (f : Char → Char) :
    ∀ p s : List Char, isPfxOf p s = true → isPfxOf (p.map f) (s.map f) = true
  | [], _, _ => rfl
  | p :: ps, c :: cs, h => by
    simp only [isPfxOf, Bool.and_eq_true, decide_eq_true_eq] at h
    simp only [List.map_cons, isPfxOf, Bool.and_eq_true, decide_eq_true_eq]
    exact ⟨by rw [h.1], isPfxOf_map f ps cs h.2⟩
  | _ :: _, [], h => by simp [isPfxOf] at h

theorem stripLangStep_noop (cmd lang : List Char)
    (h : isPfxOf (lang ++ ['\n']) (toLowerL cmd) = false) :
    stripLangStep cmd lang = cmd := by
  simp [stripLangStep, h]

theorem trimPfx_noop (pat s : List Char) (h : isPfxOf pat s = false) :
    trimPfx pat s = s := by
  simp [trimPfx, h]

/-- If the lowered text does not start with the lowered pattern, the text
does not start with the uppercase pattern either. -/
theorem upper_not_pfx (w rest : List Char)
    (hmap : (toUpperL w ++ ['\n']).map toLowerChar = w ++ ['\n'])
    (hlow : isPfxOf (w ++ ['\n']) (toLowerL rest) = false) :
    isPfxOf (toUpperL w ++ ['\n']) rest = false := by
  cases hc : isPfxOf (toUpperL w ++ ['\n']) rest
  · rfl
  · have hm := isPfxOf_map toLowerChar _ _ hc
    rw [hmap] at hm
    simp only [toLowerL] at hlow
    rw [hm] at hlow
    cases hlow

/-- The matched iteration on an all-lowercase keyword prefix strips it. -/
theorem stripLangStep_match_lower (w rest : List Char)
    (hcond : isPfxOf (w ++ ['\n']) (toLowerL (w ++ '\n' :: rest)) = true)
    (hdrop : trimPfx (w ++ ['\n']) (w ++ '\n' :: rest) = rest)
    (hupper : isPfxOf (toUpperL w ++ ['\n']) rest = false) :
    stripLangStep (w ++ '\n' :: rest) w = rest := by
  simp only [stripLangStep, hcond, if_true]
  rw [hdrop]
  exact trimPfx_noop _ _ hupper

/-- The matched iteration on an all-uppercase keyword prefix strips it. -/
theorem stripLangStep_match_upper (w rest : List Char)
    (hcond : isPfxOf (w ++ ['\n']) (toLowerL (toUpperL w ++ '\n' :: rest)) = true)
    (hnoop : trimPfx (w ++ ['\n']) (toUpperL w ++ '\n' :: rest) =
      toUpperL w ++ '\n' :: rest)
    (hdrop : trimPfx (toUpperL w ++ ['\n']) (toUpperL w ++ '\n' :: rest) = rest) :
    stripLangStep (toUpperL w ++ '\n' :: rest) w = rest := by
  simp only [stripLangStep, hcond, if_true]
  rw [hnoop, hdrop]

/-- Once the keyword has been stripped, the remaining iterations leave the
rest unchanged when no keyword starts it. -/
theorem foldl_stripLangStep_noop (rest : List Char) :
    ∀ ws : List (List Char),
      (∀ w ∈ ws, isPfxOf (w ++ ['\n']) (toLowerL rest) = false) →
      List.foldl stripLangStep rest ws = rest
  | [], _ => rfl
  | w :: ws, h => by
    rw [List.foldl_cons, stripLangStep_noop _ _ (h w (by simp))]
    exact foldl_stripLangStep_noop rest ws fun w' hw' => h w' (by simp [hw'])

/-- Claim C6 counterexample.  The claim asserts the shell-name prefix is
stripped in any letter casing; a mixed-case prefix such as Bash passes the
lowered HasPrefix check but neither TrimPrefix call removes it, so it
survives into the sanitized result. -/
theorem c6_mixed_case_counterexample :
    SanitizeCommand "Bash\nls -la" = "Bash ls -la" ∧
    SanitizeCommand "Bash\nls -la" ≠ "ls -la" ∧
    SanitizeCommand "Sh\nls -la" = "Sh ls -la" :=
  ⟨by decide, by decide, by decide⟩

/-- Claim C6 as amended.  For each keyword of the table, an input starting
with the keyword in all-lowercase or all-uppercase spelling followed by a
newline has that prefix stripped by the language-identifier loop of
SanitizeCommand (stated against a remainder that does not itself start
with a keyword, since the loop keeps scanning); a mixed-case spelling is
detected but not stripped, and survives into the sanitized result. -/
theorem c6_amended_lower_or_upper_prefix (lang rest : List Char)
    (hmem : lang ∈ langWords) (hrest : noLangStart rest = true) :
    stripLangs (lang ++ '\n' :: rest) = rest ∧
    stripLangs (toUpperL lang ++ '\n' :: rest) = rest ∧
    SanitizeCommand "bash\nls -la" = "ls -la" ∧
    SanitizeCommand "POWERSHELL\nGet-ChildItem" = "Get-ChildItem" ∧
    SanitizeCommand "Bash\nls -la" = "Bash ls -la" := by
  simp only [noLangStart, langWords, List.all_cons, List.all_nil, Bool.and_eq_true,
    Bool.not_eq_true', and_true] at hrest
  obtain ⟨hb, hs, hz, hsh, hc, hp⟩ := hrest
  simp only [langWords, List.mem_cons, List.not_mem_nil, or_false] at hmem
  refine ⟨?_, ?_, by decide, by decide, by decide⟩ <;>
    rcases hmem with rfl | rfl | rfl | rfl | rfl | rfl
  · simp only [stripLangs, langWords, List.foldl_cons, List.foldl_nil]
    rw [stripLangStep_match_lower "bash".data rest rfl rfl (upper_not_pfx "bash".data rest rfl hb),
        stripLangStep_noop rest "sh".data hs,
        stripLangStep_noop rest "zsh".data hz,
        stripLangStep_noop rest "shell".data hsh,
        stripLangStep_noop rest "cmd".data hc,
        stripLangStep_noop rest "powershell".data hp]
  · simp only [stripLangs, langWords, List.foldl_cons, List.foldl_nil]
    rw [stripLangStep_noop ("sh".data ++ '\n' :: rest) "bash".data rfl,
        stripLangStep_match_lower "sh".data rest rfl rfl (upper_not_pfx "sh".data rest rfl hs),
        stripLangStep_noop rest "zsh".data hz,
        stripLangStep_noop rest "shell".data hsh,
        stripLangStep_noop rest "cmd".data hc,
        stripLangStep_noop rest "powershell".data hp]
  · simp only [stripLangs, langWords, List.foldl_cons, List.foldl_nil]
    rw [stripLangStep_noop ("zsh".data ++ '\n' :: rest) "bash".data rfl,
        stripLangStep_noop ("zsh".data ++ '\n' :: rest) "sh".data rfl,
        stripLangStep_match_lower "zsh".data rest rfl rfl (upper_not_pfx "zsh".data rest rfl hz),
        stripLangStep_noop rest "shell".data hsh,
        stripLangStep_noop rest "cmd".data hc,
        stripLangStep_noop rest "powershell".data hp]
  · simp only [stripLangs, langWords, List.foldl_cons, List.foldl_nil]
    rw [stripLangStep_noop ("shell".data ++ '\n' :: rest) "bash".data rfl,
        stripLangStep_noop ("shell".data ++ '\n' :: rest) "sh".data rfl,
        stripLangStep_noop ("shell".data ++ '\n' :: rest) "zsh".data rfl,
        stripLangStep_match_lower "shell".data rest rfl rfl (upper_not_pfx "shell".data rest rfl hsh),
        stripLangStep_noop rest "cmd".data hc,
        stripLangStep_noop rest "powershell".data hp]
  · simp only [stripLangs, langWords, List.foldl_cons, List.foldl_nil]
    rw [stripLangStep_noop ("cmd".data ++ '\n' :: rest) "bash".data rfl,
        stripLangStep_noop ("cmd".data ++ '\n' :: rest) "sh".data rfl,
        stripLangStep_noop ("cmd".data ++ '\n' :: rest) "zsh".data rfl,
        stripLangStep_noop ("cmd".data ++ '\n' :: rest) "shell".data rfl,
        stripLangStep_match_lower "cmd".data rest rfl rfl (upper_not_pfx "cmd".data rest rfl hc),
        stripLangStep_noop rest "powershell".data hp]
  · simp only [stripLangs, langWords, List.foldl_cons, List.foldl_nil]
    rw [stripLangStep_noop ("powershell".data ++ '\n' :: rest) "bash".data rfl,
        stripLangStep_noop ("powershell".data ++ '\n' :: rest) "sh".data rfl,
        stripLangStep_noop ("powershell".data ++ '\n' :: rest) "zsh".data rfl,
        stripLangStep_noop ("powershell".data ++ '\n' :: rest) "shell".data rfl,
        stripLangStep_noop ("powershell".data ++ '\n' :: rest) "cmd".data rfl,
        stripLangStep_match_lower "powershell".data rest rfl rfl (upper_not_pfx "powershell".data rest rfl hp)]
  · simp only [stripLangs, langWords, List.foldl_cons, List.foldl_nil]
    rw [stripLangStep_match_upper "bash".data rest rfl rfl rfl,
        stripLangStep_noop rest "sh".data hs,
        stripLangStep_noop rest "zsh".data hz,
        stripLangStep_noop rest "shell".data hsh,
        stripLangStep_noop rest "cmd".data hc,
        stripLangStep_noop rest "powershell".data hp]
  · simp only [stripLangs, langWords, List.foldl_cons, List.foldl_nil]
    rw [stripLangStep_noop (toUpperL "sh".data ++ '\n' :: rest) "bash".data rfl,
        stripLangStep_match_upper "sh".data rest rfl rfl rfl,
        stripLangStep_noop rest "zsh".data hz,
        stripLangStep_noop rest "shell".data hsh,
        stripLangStep_noop rest "cmd".data hc,
        stripLangStep_noop rest "powershell".data hp]
  · simp only [stripLangs, langWords, List.foldl_cons, List.foldl_nil]
    rw [stripLangStep_noop (toUpperL "zsh".data ++ '\n' :: rest) "bash".data rfl,
        stripLangStep_noop (toUpperL "zsh".data ++ '\n' :: rest) "sh".data rfl,
        stripLangStep_match_upper "zsh".data rest rfl rfl rfl,
        stripLangStep_noop rest "shell".data hsh,
        stripLangStep_noop rest "cmd".data hc,
        stripLangStep_noop rest "powershell".data hp]
  · simp only [stripLangs, langWords, List.foldl_cons, List.foldl_nil]
    rw [stripLangStep_noop (toUpperL "shell".data ++ '\n' :: rest) "bash".data rfl,
        stripLangStep_noop (toUpperL "shell".data ++ '\n' :: rest) "sh".data rfl,
        stripLangStep_noop (toUpperL "shell".data ++ '\n' :: rest) "zsh".data rfl,
        stripLangStep_match_upper "shell".data rest rfl rfl rfl,
        stripLangStep_noop rest "cmd".data hc,
        stripLangStep_noop rest "powershell".data hp]
  · simp only [stripLangs, langWords, List.foldl_cons, List.foldl_nil]
    rw [stripLangStep_noop (toUpperL "cmd".data ++ '\n' :: rest) "bash".data rfl,
        stripLangStep_noop (toUpperL "cmd".data ++ '\n' :: rest) "sh".data rfl,
        stripLangStep_noop (toUpperL "cmd".data ++ '\n' :: rest) "zsh".data rfl,
        stripLangStep_noop (toUpperL "cmd".data ++ '\n' :: rest) "shell".data rfl,
        stripLangStep_match_upper "cmd".data rest rfl rfl rfl,
        stripLangStep_noop rest "powershell".data hp]
  · simp only [stripLangs, langWords, List.foldl_cons, List.foldl_nil]
    rw [stripLangStep_noop (toUpperL "powershell".data ++ '\n' :: rest) "bash".data rfl,
        stripLangStep_noop (toUpperL "powershell".data ++ '\n' :: rest) "sh".data rfl,
        stripLangStep_noop (toUpperL "powershell".data ++ '\n' :: rest) "zsh".data rfl,
        stripLangStep_noop (toUpperL "powershell".data ++ '\n' :: rest) "shell".data rfl,
        stripLangStep_noop (toUpperL "powershell".data ++ '\n' :: rest) "cmd".data rfl,
        stripLangStep_match_upper "powershell".data rest rfl rfl rfl]

/-- Claim C6 witness: the amended statement at the keyword bash and the
remainder of the canonical test input. -/
theorem c6_amended_lower_or_upper_prefix_witness :
    stripLangs ("bash".data ++ '\n' :: "ls -la".data) = "ls -la".data ∧
    stripLangs (toUpperL "bash".data ++ '\n' :: "ls -la".data) = "ls -la".data ∧
    SanitizeCommand "bash\nls -la" = "ls -la" ∧
    SanitizeCommand "POWERSHELL\nGet-ChildItem" = "Get-ChildItem" ∧
    SanitizeCommand "Bash\nls -la" = "Bash ls -la" :=
  c6_amended_lower_or_upper_prefix "bash".data "ls -la".data (by decide) (by decide)

end Howto
